import Mathlib

/-!
Verification of the varTrack configuration-synchronization engine.

This file gives a shallow embedding, in Lean 4, of the parts of the
varTrack source that the verified claims concern:

* `compare_states`            (app/business_logic/compare_states.py)
* `find_key_iterative` and `Flattenizer.process`
                              (app/business_logic/json_pathmap.py,
                               app/pipeline/transforms/flattener.py)
* `calculate_sync_rows`       (app/business_logic/sync_engine.py)
* `Rule.get_unique_key_and_env` and `Rule.resolve_rule_for_repo`
                              (app/models/rule.py)
* `DynamicStrategySelector.decide`
                              (app/business_logic/dynamic_strategy.py)
* `ReconciliationService._execute_sync`
                              (app/tasks/watcher_agent.py)
* `MongoSink.write` / `MongoSink.flush`
                              (app/pipeline/sinks/mongo_sink.py)
* `MongoFileStrategy.write` / `MongoFileStrategy._flush`
                              (app/utils/strategies/mongo_file_strategy.py)
* `WebhooksHandler.verify_signature`
                              (app/utils/handlers/webhooks.py)

Python values are modelled by the inductive type `PyVal`; Python
dictionaries by insertion-ordered association lists (`List (String × α)`);
Python exceptions by `Except String`.
-/

namespace VarTrack

/-- Model of a Python/JSON value as it occurs in configuration trees:
`None`, booleans, integers, strings, lists and (insertion-ordered)
dictionaries with string keys. -/
inductive PyVal where
  | vNull : PyVal
  | vBool : Bool → PyVal
  | vInt : Int → PyVal
  | vStr : String → PyVal
  | vList : List PyVal → PyVal
  | vDict : List (String × PyVal) → PyVal
deriving Repr

mutual

/-- Structural equality on `PyVal`, modelling the Python `==` used by
`compare_states` on configuration values (dictionaries are modelled as
insertion-ordered association lists, so two dicts are equal when their
entry lists are equal). -/
def pyEq : PyVal → PyVal → Bool
  | .vNull, .vNull => true
  | .vBool a, .vBool b => a == b
  | .vInt a, .vInt b => a == b
  | .vStr a, .vStr b => a == b
  | .vList xs, .vList ys => pyEqList xs ys
  | .vDict xs, .vDict ys => pyEqDict xs ys
  | _, _ => false

/-- Pointwise equality of two Python lists. -/
def pyEqList : List PyVal → List PyVal → Bool
  | [], [] => true
  | x :: xs, y :: ys => pyEq x y && pyEqList xs ys
  | _, _ => false

/-- Pointwise equality of two Python dict entry lists. -/
def pyEqDict : List (String × PyVal) → List (String × PyVal) → Bool
  | [], [] => true
  | (k, v) :: xs, (k', v') :: ys => k == k' && pyEq v v' && pyEqDict xs ys
  | _, _ => false

end

/-- A Python dictionary with string keys and `PyVal` values, used both
for parsed configuration trees and for the flat key/value maps the
pipeline produces. -/
abbrev PyDict := List (String × PyVal)

/-- Python `d[k]` as a fallible access: `KeyError` when the key is
absent. -/
def dictGet (d : List (String × α)) (k : String) : Except String α :=
  match d.lookup k with
  | some v => .ok v
  | none => .error ("KeyError: " ++ k)

/-- Python `d.update(u)` on insertion-ordered dictionaries: values of
existing keys are replaced in place, new keys are appended in the order
they occur in `u`. -/
def dictUpdate (d u : List (String × α)) : List (String × α) :=
  (d.map fun p => match u.lookup p.1 with
    | some v => (p.1, v)
    | none => p) ++
  u.filter fun q => (d.lookup q.1).isNone

/--
`compare_states` (app/business_logic/compare_states.py, lines 5-64),
restricted to the case where both inputs are already mappings (the JSON
string-decoding entry branch and the non-mapping wrapping branch of the
source are then not taken).

The source builds three dictionaries:
* `deleted`: keys of `old_data` not in `current_data`, with old value;
* `added`: keys of `current_data` not in `old_data`, with current value;
* `changed`: keys in both whose values differ (Python `!=`), mapped to
  the dictionary `{'old': old value, 'new': new value}`;
and returns `{'deleted': ..., 'added': ..., 'changed': ...}`.
-/
def compare_states (current_data old_data : PyDict) : List (String × PyDict) :=
  let deleted := old_data.filter fun p => (current_data.lookup p.1).isNone
  let added := current_data.filter fun p => (old_data.lookup p.1).isNone
  let changed := current_data.filterMap fun p =>
    match old_data.lookup p.1 with
    | some w => if pyEq p.2 w then none
                else some (p.1, PyVal.vDict [("old", w), ("new", p.2)])
    | none => none
  [("deleted", deleted), ("added", added), ("changed", changed)]

/-- The key-membership category of `unchanged` keys: present in both
inputs with values the code's equality accepts. -/
def unchangedKey (cur old : PyDict) (k : String) : Prop :=
  ∃ v v', cur.lookup k = some v ∧ old.lookup k = some v' ∧ pyEq v v' = true

/-! ### Content pipeline: Project and Flatten (claims about json_pathmap.py / flattener.py) -/

/-- Python `isinstance(v, (dict, list))`. -/
def isContainer : PyVal → Bool
  | .vDict _ => true
  | .vList _ => true
  | _ => false

/-- Python truthiness (`if not data:`) on a `PyVal`. -/
def pyFalsy : PyVal → Bool
  | .vNull => true
  | .vBool b => !b
  | .vInt n => n == 0
  | .vStr s => s == ""
  | .vList xs => xs.isEmpty
  | .vDict xs => xs.isEmpty

/-- The path built for a dict entry in `find_key_iterative`:
`f"{current_path}.{key}" if current_path else key`. -/
def childPath (current_path key : String) : String :=
  if current_path = "" then key else current_path ++ "." ++ key

/-- The breadth-first worklist loop of `find_key_iterative`
(app/business_logic/json_pathmap.py, lines 165-198).  The queue holds
`(current_object, current_path)` pairs; every dict entry whose key equals
the target contributes one result dict `{"path": ..., "value": ...}`,
modelled as the pair `(path, value)`; dict and list children are enqueued
in iteration order.  The Python `while queue:` loop always terminates on
finite trees; the `fuel` argument bounds the number of loop iterations in
the model. -/
def findKeyGo (target : String) : ℕ → List (PyVal × String) → List (String × PyVal) →
    List (String × PyVal)
  | 0, _, results => results
  | _ + 1, [], results => results
  | fuel + 1, (cur, path) :: rest, results =>
    match cur with
    | .vDict entries =>
        findKeyGo target fuel
          (rest ++ entries.filterMap fun e =>
            if isContainer e.2 then some (e.2, childPath path e.1) else none)
          (results ++ entries.filterMap fun e =>
            if e.1 = target then some (childPath path e.1, e.2) else none)
    | .vList items =>
        findKeyGo target fuel
          (rest ++ items.enum.filterMap fun it =>
            if isContainer it.2 then some (it.2, path ++ "[" ++ toString it.1 ++ "]") else none)
          results
    | _ => findKeyGo target fuel rest results

/-- `find_key_iterative(obj, target_key)`: returns the list of all
matches (each a `{"path", "value"}` record), not a single node. -/
def find_key_iterative (fuel : ℕ) (obj : PyVal) (target_key : String) :
    List (String × PyVal) :=
  findKeyGo target_key fuel [(obj, "")] []

/-- `Flattenizer.process` (app/pipeline/transforms/flattener.py, lines
14-30).  The source computes
`target_node_wrapper = find_key_iterative(data, self.root_key)` — a
Python list — and then evaluates
`target_node_wrapper.get('value') if target_node_wrapper else None`:
when the list is empty it is falsy, `target_node` is `None` and the
method returns `{}`; when it is non-empty, calling `.get` on a list
raises `AttributeError`, so the `flatten_dfs` call below is never
reached. -/
def flattenizerProcess (fuel : ℕ) (root_key : String) (data : PyVal) :
    Except String PyDict :=
  if pyFalsy data then .ok []
  else
    let target_node_wrapper := find_key_iterative fuel data root_key
    if target_node_wrapper.isEmpty then .ok []
    else .error "AttributeError: list object has no attribute get"

/-! ### Sync engine (app/business_logic/sync_engine.py) -/

/-- `RowKind` (app/pipeline/pipeline_row.py). -/
inductive RowKind where
  | INSERT
  | UPDATE
  | DELETE
  | UNCHANGED
deriving Repr, DecidableEq

/-- `PipelineRow` (app/pipeline/pipeline_row.py): one atomic
configuration change; `metadata` is modelled as a string-valued dict. -/
structure PipelineRow where
  key : String
  value : PyVal
  kind : RowKind
  metadata : List (String × String)
deriving Repr

/-- `SyncMode` (app/utils/enums/sync_mode.py). -/
inductive SyncMode where
  | GIT_UPSERT_ALL
  | GIT_SMART_REPAIR
  | LIVE_STATE
  | AUTO
deriving Repr, DecidableEq

/--
`calculate_sync_rows` (app/business_logic/sync_engine.py, lines 9-66).

Modelling choices, all recorded against the source:
* The parse/flatten composition `flattener.process(parser.process(...))`
  is abstracted by passing the already-flattened maps: `curr_flat` for
  the current Git content, `prev_flat_git` for the previous commit
  content, and `db_state` for the processed result of `sink.fetch`
  (used by the `LIVE_STATE` previous-state branch and by the
  `GIT_SMART_REPAIR` repair check).
* The sync mode is passed resolved.  The source computes it as
  `rule.resolve_sync_mode(sink, file['current'], is_file_strategy)`,
  a call which itself cannot succeed because `Rule.resolve_sync_mode`
  accepts only `(sink, current_str)`; that arity mismatch is recorded
  with the claim result and is not modelled here.
* Rules with `variablesMap` unset are modelled, so the
  `curr_flat.update(vars_to_sync)` branch is not taken.
* Python `diff['unchanged']` is the fallible access `dictGet`: the
  `compare_states` result has no `'unchanged'` key, so the access
  raises `KeyError`.
-/
def calculate_sync_rows (curr_flat prev_flat_git db_state : PyDict)
    (sync_mode : SyncMode) (metadata : List (String × String)) :
    Except String (List PipelineRow) := do
  let curr := curr_flat
  let prev := if sync_mode = SyncMode.LIVE_STATE then db_state else prev_flat_git
  let diff := compare_states curr prev
  let added ← dictGet diff "added"
  let changed ← dictGet diff "changed"
  let deleted ← dictGet diff "deleted"
  let rows :=
    (added.map fun p => PipelineRow.mk p.1 p.2 RowKind.INSERT metadata) ++
    (changed.map fun p => PipelineRow.mk p.1 p.2 RowKind.UPDATE metadata) ++
    (deleted.map fun p => PipelineRow.mk p.1 p.2 RowKind.DELETE metadata)
  if sync_mode = SyncMode.GIT_UPSERT_ALL then
    let unchanged ← dictGet diff "unchanged"
    return rows ++ unchanged.map fun p => PipelineRow.mk p.1 p.2 RowKind.UPDATE metadata
  else if sync_mode = SyncMode.GIT_SMART_REPAIR then
    let unchanged ← dictGet diff "unchanged"
    return rows ++ (unchanged.filter fun p =>
      match db_state.lookup p.1 with
      | some w => !pyEq w p.2
      | none => true).map fun p => PipelineRow.mk p.1 p.2 RowKind.UPDATE metadata
  else
    return rows

/-! ### Sync-mode chooser (app/business_logic/dynamic_strategy.py) -/
namespace DynamicStrategySelector

/-- `AVG_BANDWIDTH_MBPS = 20.0` (MB/s link speed). -/
def AVG_BANDWIDTH_MBPS : ℚ := 20

/-- `WRITE_COST_MS = 0.5`. -/
def WRITE_COST_MS : ℚ := 1 / 2

/-- `READ_ID_COST_MS = 0.05`. -/
def READ_ID_COST_MS : ℚ := 1 / 20

/-- `DRIFT_RATE = 0.05`. -/
def DRIFT_RATE : ℚ := 1 / 20

/-- `DynamicStrategySelector.decide`
(app/business_logic/dynamic_strategy.py, lines 24-62).  `content` is
modelled as a byte string (newline = byte 10); the measured latency
`measure_latency(sink)` (a network probe) is passed in as `latency`,
in seconds, matching the claim's quantification over the sink latency. -/
def decide (content : List ℕ) (latency : ℚ) (is_file_strategy : Bool) : SyncMode :=
  if content.isEmpty then SyncMode.GIT_SMART_REPAIR
  else
    let N : ℚ := if content.count 10 = 0 then 1 else (content.count 10 : ℚ)
    let S : ℚ := content.length
    let L : ℚ := latency
    let download_time := S / (AVG_BANDWIDTH_MBPS * 1024 * 1024)
    let download_time := if is_file_strategy then download_time * 2 else download_time
    let cost_live := L + download_time
    let write_time := N * WRITE_COST_MS / 1000
    let cost_upsert := L + write_time
    let read_time := N * READ_ID_COST_MS / 1000
    let repair_write_time := N * DRIFT_RATE * WRITE_COST_MS / 1000
    let cost_repair := 2 * L + read_time + repair_write_time
    if cost_live ≤ cost_upsert ∧ cost_live ≤ cost_repair then SyncMode.LIVE_STATE
    else if cost_upsert ≤ cost_repair then SyncMode.GIT_UPSERT_ALL
    else SyncMode.GIT_SMART_REPAIR

end DynamicStrategySelector

/-- The claim's own description of the AUTO chooser, written from the
spec's words for comparison with `DynamicStrategySelector.decide`: empty
content selects `GIT_SMART_REPAIR`; otherwise, with
`N = max(#newlines, 1)` and `S` the byte length, the mode of minimal
cost among `cost_live`, `cost_upsert` and `cost_repair` is returned,
ties broken in the order live, then upsert, then repair. -/
def specModeChooser (content : List ℕ) (latency : ℚ) (is_file_strategy : Bool) : SyncMode :=
  if content.isEmpty then SyncMode.GIT_SMART_REPAIR
  else
    let N : ℚ := max (content.count 10) 1
    let S : ℚ := content.length
    let cost_live := latency + S / (20 * 1024 * 1024) * (if is_file_strategy then 2 else 1)
    let cost_upsert := latency + N * (1 / 2) / 1000
    let cost_repair := 2 * latency + N * (1 / 20) / 1000 + N * (1 / 20) * (1 / 2) / 1000
    let m := min cost_live (min cost_upsert cost_repair)
    if cost_live = m then SyncMode.LIVE_STATE
    else if cost_upsert = m then SyncMode.GIT_UPSERT_ALL
    else SyncMode.GIT_SMART_REPAIR

/-- The claim's concrete scenario: 10 KB of content (10240 bytes), 100
newline bytes, document strategy, measured latency 1 ms. -/
def c5Content : List ℕ := List.replicate 100 10 ++ List.replicate 10140 97

/-! ### Rule engine (app/models/rule.py) -/

/-- Replace, left to right, every non-overlapping occurrence of `sub`
(non-empty) in the character list by `repl`; `fuel` bounds the number of
steps (each step consumes at least one character, so the list's length
is enough fuel).  This is Python `str.replace` for a non-empty pattern,
written by structural recursion so concrete calls reduce in the
kernel. -/
def replaceAllAux (sub repl : List Char) : ℕ → List Char → List Char
  | 0, rest => rest
  | _ + 1, [] => []
  | fuel + 1, c :: rest =>
    if sub ≠ [] ∧ sub.isPrefixOf (c :: rest) then
      repl ++ replaceAllAux sub repl fuel (List.drop sub.length (c :: rest))
    else
      c :: replaceAllAux sub repl fuel rest

/-- Python `s.replace(pattern, replacement)` for a non-empty pattern
(the source only ever calls it with the literal `'refs/heads/'`). -/
def pyReplace (s pattern replacement : String) : String :=
  if pattern = "" then s
  else ⟨replaceAllAux pattern.data replacement.data s.data.length s.data⟩

/-- One piece of a `str.format` template: literal text or a `{name}`
placeholder.  `uniqueKeyName` strings such as `"{repoName}-{env}"` are
modelled pre-parsed into these parts. -/
inductive TmplPart where
  | lit (s : String)
  | var (name : String)
deriving Repr, DecidableEq

/-- Python `template.format(**vars)` for a pre-parsed template:
every placeholder is looked up in `vars`; a missing name raises
`KeyError`, modelled as `none`. -/
def formatTemplate (parts : List TmplPart) (vars : List (String × String)) :
    Option String :=
  parts.foldl
    (fun acc part =>
      match acc, part with
      | some s, .lit t => some (s ++ t)
      | some s, .var n => (vars.lookup n).map (fun v => s ++ v)
      | none, _ => none)
    (some "")

/-- The `Rule` fields that `get_unique_key_and_env` consults
(app/models/rule.py), for the branch-strategy configurations the claim
quantifies over: `filePathMap` and `branchMap` unset (`filePathMap` is
then skipped at priority 1, and with `envAsBranch = true`
`_resolve_env_from_branch` returns the branch before ever consulting
`branchMap`). -/
structure Rule where
  fileName : Option String
  envAsBranch : Bool
  uniqueKeyName : List TmplPart
  variablesMap : Option (List (String × String))
deriving Repr

/-- `Rule._build_base_variables` (app/models/rule.py, lines 223-244):
strips `refs/heads/` from the branch and returns
`{"branch": ..., "file_path": ...}` merged with `variablesMap`.  The
comment `# Extract short repo name (last segment after '/')` in the
source is not followed by any code, so no `repoName` entry is ever
added. -/
def Rule.build_base_variables (r : Rule) (file_path branch : String) :
    List (String × String) :=
  let clean_branch := pyReplace branch "refs/heads/" ""
  let vars := [("branch", clean_branch), ("file_path", file_path)]
  match r.variablesMap with
  | some vm => dictUpdate vars vm
  | none => vars

/-- `Rule._resolve_env_from_branch` (app/models/rule.py, lines 273-290)
for rules without a `branchMap`: `envAsBranch` returns the branch
itself, otherwise no strategy matches. -/
def Rule.resolve_env_from_branch (r : Rule) (branch : String) : Option String :=
  if r.envAsBranch then some branch else none

/-- `Rule._format_unique_key` (app/models/rule.py, lines 355-369):
formats `uniqueKeyName`, returning `None` when a referenced variable is
missing (the `KeyError` branch). -/
def Rule.format_unique_key (r : Rule) (vars : List (String × String)) :
    Option String :=
  formatTemplate r.uniqueKeyName vars

/-- The result dictionary `{"unique_key": key, "env": env}` of
`Rule.get_unique_key_and_env`; `key` comes from `_format_unique_key`
and may be `None`. -/
structure RuleMatch where
  unique_key : Option String
  env : String
deriving Repr, DecidableEq

/-- `Rule.get_unique_key_and_env` (app/models/rule.py, lines 165-194)
for the configurations of the `Rule` model above: priority 1
(`filePathMap`) is skipped, priority 2 applies when `fileName` is set,
truthy and equal to `file_path`; a falsy resolved env (`None` or the
empty string) yields `None`. -/
def Rule.get_unique_key_and_env (r : Rule) (file_path branch : String) :
    Option RuleMatch :=
  let vars := r.build_base_variables file_path branch
  let env : Option String :=
    match r.fileName with
    | some f =>
        if f ≠ "" ∧ file_path = f then
          r.resolve_env_from_branch (pyReplace branch "refs/heads/" "")
        else none
    | none => none
  match env with
  | some e =>
      if e ≠ "" then
        let vars := dictUpdate vars [("env", e)]
        some { unique_key := r.format_unique_key vars, env := e }
      else none
  | none => none

/-- The rule of the C4 scenario: `envAsBranch = true`,
`fileName = "config.json"`, the default unique-key template
`"{repoName}-{env}"` (which passes the source's validator 4, since that
validator lists `repoName` among the always-available vars). -/
def c4Rule : Rule :=
  { fileName := some "config.json"
    envAsBranch := true
    uniqueKeyName := [.var "repoName", .lit "-", .var "env"]
    variablesMap := none }

/-- Python `needle in hay` on strings: `needle` occurs as a contiguous
substring of `hay`. -/
def containsSub (needle hay : List Char) : Bool :=
  match hay with
  | [] => needle.isPrefixOf []
  | _ :: rest => needle.isPrefixOf hay || containsSub needle rest

/-- Python `r in repo_name` as used by the override matching. -/
def pyIn (needle hay : String) : Bool :=
  containsSub needle.data hay.data

/-- `RepositoryOverride` (app/models/rule.py, lines 13-18): the match
and exclude lists, the `enable` flag (default `False`), and — via the
`extra="allow"` pydantic config — the override's set extra fields,
which `model_dump(exclude={'matchRepositories', 'excludeRepositories'},
exclude_unset=True)` later extracts; those set fields are modelled as
the `updates` dict. -/
structure RepositoryOverride where
  matchRepositories : Option (List String)
  excludeRepositories : Option (List String)
  enable : Bool
  updates : List (String × PyVal)
deriving Repr

/-- The pass condition of one loop iteration of `resolve_rule_for_repo`:
`enable` is true, `matchRepositories` (when truthy: set and non-empty)
contains a substring of the repository name, and `excludeRepositories`
(when truthy) does not. -/
def overridePasses (repo_name : String) (o : RepositoryOverride) : Bool :=
  o.enable &&
  (match o.matchRepositories with
   | some ms => if ms.isEmpty then true else ms.any fun r => pyIn r repo_name
   | none => true) &&
  (match o.excludeRepositories with
   | some ex => if ex.isEmpty then true else !(ex.any fun r => pyIn r repo_name)
   | none => true)

/-- The `for override in self.overrides:` loop of
`resolve_rule_for_repo`: the first override that passes has its set
fields merged onto the config (`final_config.update(updates)`) and the
merged config is returned (`return Rule(**final_config)` — the pydantic
re-validation is abstracted to the merged field dict); when the loop
falls through, the function ends without a `return` statement, i.e.
returns `None`. -/
def resolveLoop (base_config : List (String × PyVal)) (repo_name : String) :
    List RepositoryOverride → Option (List (String × PyVal))
  | [] => none
  | o :: rest =>
    if overridePasses repo_name o then some (dictUpdate base_config o.updates)
    else resolveLoop base_config repo_name rest

/-- `Rule.resolve_rule_for_repo` (app/models/rule.py, lines 133-157).
`base_config` stands for `self.model_dump(exclude={'overrides'})`, the
rule's own field dict.  `if not self.overrides: return self` covers both
an unset (`None`) and an empty overrides list. -/
def resolve_rule_for_repo (base_config : List (String × PyVal))
    (overrides : Option (List RepositoryOverride)) (repo_name : String) :
    Option (List (String × PyVal)) :=
  match overrides with
  | none => some base_config
  | some os =>
    if os.isEmpty then some base_config
    else resolveLoop base_config repo_name os

def c6Base : List (String × PyVal) :=
  [("platform", .vStr "github"), ("syncMode", .vStr "auto")]

/-- A declared override that is disabled (`enable` defaults to false). -/
def c6Disabled : RepositoryOverride :=
  { matchRepositories := none, excludeRepositories := none, enable := false, updates := [] }

/-- Two enabled overrides that both match the repository name. -/
def c6First : RepositoryOverride :=
  { matchRepositories := some ["repo"], excludeRepositories := none, enable := true,
    updates := [("syncMode", .vStr "live_state")] }

def c6Second : RepositoryOverride :=
  { matchRepositories := some ["repo"], excludeRepositories := none, enable := true,
    updates := [("fileName", .vStr "x.json")] }

/-! ### Self-healing supervisor (app/tasks/watcher_agent.py) -/

/-- The three ways one `_execute_sync` call can go: `reconcile` returns
a report without errors, returns a report with errors, or raises. -/
inductive ExecOutcome where
  | success
  | reportErrors
  | exception
deriving Repr, DecidableEq

/-- The `ReconciliationSchedule` fields that the auto-disable logic
touches (`last_run`/`last_report` only record timestamps/reports and are
omitted). -/
structure Schedule where
  enabled : Bool
  consecutive_errors : ℕ
  max_consecutive_errors : ℕ
deriving Repr, DecidableEq

/-- A fresh schedule as built by `ReconciliationSchedule.__init__`:
enabled, zero consecutive errors, `max_consecutive_errors = 3`. -/
def initialSchedule : Schedule :=
  { enabled := true, consecutive_errors := 0, max_consecutive_errors := 3 }

/-- `ReconciliationService._execute_sync` (app/tasks/watcher_agent.py,
lines 56-70) as a step on the schedule state.  Inside the `try:` a
returned report with errors increments `consecutive_errors`, a clean
report zeroes it, and then — still inside the `try:` — the counter is
compared with `max_consecutive_errors` and the schedule disabled when it
has reached it.  The `except:` branch only increments the counter: the
disable check is never reached on a raised exception. -/
def execute_sync (s : Schedule) (o : ExecOutcome) : Schedule :=
  match o with
  | .exception => { s with consecutive_errors := s.consecutive_errors + 1 }
  | .success =>
      let s := { s with consecutive_errors := 0 }
      if s.max_consecutive_errors ≤ s.consecutive_errors then { s with enabled := false }
      else s
  | .reportErrors =>
      let s := { s with consecutive_errors := s.consecutive_errors + 1 }
      if s.max_consecutive_errors ≤ s.consecutive_errors then { s with enabled := false }
      else s

/-- A sequence of executions of one schedule. -/
def runTrace (s : Schedule) (t : List ExecOutcome) : Schedule :=
  t.foldl execute_sync s

/-! ### Document sink (app/pipeline/sinks/mongo_sink.py) -/

/-- The three pymongo operations `MongoSink.write` can enqueue. -/
inductive MongoOp where
  | deleteOne (key : String)
  | updateOne (key : String) (value : PyVal) (metadata : List (String × String))
  | insertOne (key : String) (value : PyVal) (metadata : List (String × String))
deriving Repr

/-- How the `collection.bulk_write` call inside `flush` goes: clean, a
`BulkWriteError` (some per-record failures), or another exception.  All
three are handled inside `flush`; the model keeps the outcome as a
parameter because it only affects logging, never the buffer. -/
inductive FlushOutcome where
  | success
  | bulkWriteError
  | otherError
deriving Repr, DecidableEq

/-- The `MongoSink` state: constructor arguments plus the row buffer. -/
structure MongoSinkState where
  upsert_enable : Bool
  batch_size : ℕ
  buffer : List MongoOp
deriving Repr

/-- `MongoSink.flush` (app/pipeline/sinks/mongo_sink.py, lines 47-61):
an empty buffer returns immediately; otherwise `bulk_write` runs inside
`try/except/finally` and the `finally:` block clears the buffer whatever
the outcome. -/
def MongoSink.flush (_outcome : FlushOutcome) (s : MongoSinkState) : MongoSinkState :=
  if s.buffer.isEmpty then s
  else { s with buffer := [] }

/-- `MongoSink.write` (app/pipeline/sinks/mongo_sink.py, lines 20-45):
builds an operation for DELETE/INSERT/UPDATE rows (`op` stays `None`
for `UNCHANGED`), appends it when one was built, and flushes once the
buffer length has reached `batch_size`. -/
def MongoSink.write (outcome : FlushOutcome) (s : MongoSinkState) (row : PipelineRow) :
    MongoSinkState :=
  let op : Option MongoOp :=
    match row.kind with
    | .DELETE => some (.deleteOne row.key)
    | .INSERT => if s.upsert_enable then some (.updateOne row.key row.value row.metadata)
                 else some (.insertOne row.key row.value row.metadata)
    | .UPDATE => if s.upsert_enable then some (.updateOne row.key row.value row.metadata)
                 else some (.insertOne row.key row.value row.metadata)
    | .UNCHANGED => none
  match op with
  | none => s
  | some op =>
      let s' := { s with buffer := s.buffer ++ [op] }
      if s.batch_size ≤ s'.buffer.length then MongoSink.flush outcome s' else s'

/-! ### File-strategy sink (app/utils/strategies/mongo_file_strategy.py) -/

/-- `MongoFileStrategy.write` (lines 20-39): appends the row when one is
given (`if row:`), then calls `_flush` when
`(len(buffer) >= buffer_size or buffer_size == 0) and len(buffer) > 0`;
`_flush` ends in `finally: buffer.clear()`, so a triggered flush always
leaves the buffer empty.  The returned pair is the buffer after the call
together with whether `_flush` was triggered. -/
def MongoFileStrategy.write (row : Option PipelineRow) (buffer : List PipelineRow)
    (buffer_size : ℕ) : List PipelineRow × Bool :=
  let buffer := match row with
    | some r => buffer ++ [r]
    | none => buffer
  if (buffer_size ≤ buffer.length ∨ buffer_size = 0) ∧ 0 < buffer.length then ([], true)
  else (buffer, false)

/-- The bucket `MongoFileStrategy._flush` (lines 50-61) routes a row to
when the datasource has no static collection (dynamic-container mode):
`target = row.metadata.get('env') or 'fs'` — a missing or falsy `env`
falls back to the default GridFS bucket `'fs'`. -/
def routeTarget (metadata : List (String × String)) : String :=
  match metadata.lookup "env" with
  | some e => if e = "" then "fs" else e
  | none => "fs"

/-- One `defaultdict(list)` append: extend the entry of `k` when it
exists, otherwise add a new group at the end (first-seen order). -/
def appendGroup (acc : List (String × List α)) (k : String) (v : α) :
    List (String × List α) :=
  match acc with
  | [] => [(k, [v])]
  | (k', vs) :: rest =>
      if k' = k then (k', vs ++ [v]) :: rest else (k', vs) :: appendGroup rest k v

/-- The `grouped_by_collection` dict built at the top of
`MongoFileStrategy._flush`: with a static collection every row goes to
that collection's bucket; in dynamic mode each row goes to
`routeTarget` of its metadata. -/
def flushGroups (collection : Option String) (buffer : List PipelineRow) :
    List (String × List PipelineRow) :=
  match collection with
  | some name => [(name, buffer)]
  | none => buffer.foldl (fun acc row => appendGroup acc (routeTarget row.metadata) row) []

/-! ### Webhook signature verification (app/utils/handlers/webhooks.py) -/

/-- Python `s.split(sep)` for a one-character separator, by structural
recursion on the character list. -/
def splitOnChar (sep : Char) : List Char → List (List Char)
  | [] => [[]]
  | c :: rest =>
    let r := splitOnChar sep rest
    if c = sep then [] :: r
    else
      match r with
      | h :: t => (c :: h) :: t
      | [] => [[c]]

/-- `WebhooksHandler.verify_signature` (app/utils/handlers/webhooks.py,
lines 60-88).  The HMAC-SHA-256 hex digest is out of scope (spec §1)
and passed in as `hmacHex`; `hmac.compare_digest` is string equality;
a falsy secret (`None` or `""`) skips verification; a missing header
fails; `sha_name, signature = signature_header.split('=')` raises
`ValueError` — caught, returning false — unless the split has exactly
two parts. -/
def verify_signature (secret : Option String) (payload_body : List ℕ)
    (signature_header : Option String) (hmacHex : String → List ℕ → String) : Bool :=
  match secret with
  | none => true
  | some sec =>
    if sec = "" then true
    else
      match signature_header with
      | none => false
      | some h =>
        match splitOnChar '=' h.data with
        | [sha_name, signature] =>
            if (⟨sha_name⟩ : String) ≠ "sha256" then false
            else hmacHex sec payload_body == (⟨signature⟩ : String)
        | _ => false

/-- A sink whose buffer is already full (batch_size 1, one buffered
operation). -/
def c8State : MongoSinkState :=
  { upsert_enable := false, batch_size := 1, buffer := [.deleteOne "k"] }

/-- A row of kind UNCHANGED. -/
def c8Row : PipelineRow :=
  { key := "a", value := .vInt 1, kind := .UNCHANGED, metadata := [] }

/-- A mutation row whose metadata has a unique key but no `env` routing
entry. -/
def c9Row : PipelineRow :=
  { key := "a", value := .vInt 1, kind := .INSERT, metadata := [("unique_key", "svc-1")] }

/-! ## Theorems

Supporting lemmas first, then the theorems settling the claims. -/

theorem lookup_filter_key (l : List (String × α)) (pred : String → Bool) (k : String) :
    (l.filter fun p => pred p.1).lookup k = if pred k then l.lookup k else none := by
  induction l with
  | nil => simp [List.lookup]
  | cons a l ih =>
    obtain ⟨a1, a2⟩ := a
    by_cases hak : a1 = k
    · subst hak
      by_cases hp : pred a1
      · simp [List.filter, hp, List.lookup]
      · simp only [List.filter, hp]
        simp only [Bool.false_eq_true, if_neg, hp]
        simp [List.lookup, ih, hp]
    · have hbeq : (k == a1) = false := beq_eq_false_iff_ne.mpr (Ne.symm hak)
      by_cases hp : pred a1
      · simp [List.filter, hp, List.lookup, ih, hbeq]
      · simp [List.filter, hp, List.lookup, ih, hbeq]

theorem lookup_filterMap_key_notmem (l : List (String × α)) (f : String → α → Option β)
    (k : String) (hk : k ∉ l.map Prod.fst) :
    (l.filterMap fun p => (f p.1 p.2).map fun b => (p.1, b)).lookup k = none := by
  induction l with
  | nil => simp [List.lookup]
  | cons a l ih =>
    obtain ⟨a1, a2⟩ := a
    simp only [List.map_cons, List.mem_cons, not_or] at hk
    have hbeq : (k == a1) = false := beq_eq_false_iff_ne.mpr hk.1
    cases hfa : f a1 a2 with
    | none => simpa [List.filterMap_cons, hfa] using ih hk.2
    | some b => simpa [List.filterMap_cons, hfa, List.lookup, hbeq] using ih hk.2

theorem lookup_filterMap_key (l : List (String × α)) (f : String → α → Option β)
    (k : String) (hnd : (l.map Prod.fst).Nodup) :
    (l.filterMap fun p => (f p.1 p.2).map fun b => (p.1, b)).lookup k =
      match l.lookup k with
      | some v => f k v
      | none => none := by
  induction l with
  | nil => simp [List.lookup]
  | cons a l ih =>
    obtain ⟨a1, a2⟩ := a
    simp only [List.map_cons, List.nodup_cons] at hnd
    by_cases hak : a1 = k
    · subst hak
      cases hfa : f a1 a2 with
      | none =>
        simp only [List.filterMap_cons, hfa, Option.map_none', List.lookup, beq_self_eq_true]
        exact lookup_filterMap_key_notmem l f a1 hnd.1
      | some b => simp [List.filterMap_cons, hfa, List.lookup]
    · have hbeq : (k == a1) = false := beq_eq_false_iff_ne.mpr (Ne.symm hak)
      cases hfa : f a1 a2 with
      | none => simpa [List.filterMap_cons, hfa, List.lookup, hbeq] using ih hnd.2
      | some b => simpa [List.filterMap_cons, hfa, List.lookup, hbeq] using ih hnd.2

/-- The `changed` dictionary that `compare_states` builds, looked up at a
key: defined when the key is in both inputs with values Python `!=`
distinguishes, and then equal to the `{'old': ..., 'new': ...}` wrapper. -/
theorem changed_lookup (cur old : PyDict) (hc : (cur.map Prod.fst).Nodup) (k : String) :
    (cur.filterMap fun p =>
      match old.lookup p.1 with
      | some w => if pyEq p.2 w then none
                  else some (p.1, PyVal.vDict [("old", w), ("new", p.2)])
      | none => none).lookup k =
    match cur.lookup k, old.lookup k with
    | some v, some w => if pyEq v w then none
                        else some (PyVal.vDict [("old", w), ("new", v)])
    | _, _ => none := by
  have hshape : (cur.filterMap fun p =>
      match old.lookup p.1 with
      | some w => if pyEq p.2 w then none
                  else some (p.1, PyVal.vDict [("old", w), ("new", p.2)])
      | none => none) =
    (cur.filterMap fun p =>
      ((fun k v => match old.lookup k with
        | some w => if pyEq v w then none
                    else some (PyVal.vDict [("old", w), ("new", v)])
        | none => none) p.1 p.2).map fun b => (p.1, b)) := by
    congr 1
    funext p
    rcases hol : old.lookup p.1 with _ | w
    · simp [hol]
    · by_cases h : pyEq p.2 w
      · simp [hol, h]
      · simp [hol, h]
  rw [hshape, lookup_filterMap_key cur
    (fun k v => match old.lookup k with
      | some w => if pyEq v w then none
                  else some (PyVal.vDict [("old", w), ("new", v)])
      | none => none) k hc]
  rcases hcl : cur.lookup k with _ | v
  · rfl
  · rcases hol : old.lookup k with _ | w
    · rfl
    · rfl

theorem select_min_eq {α : Type} (a b c : ℚ) (x y z : α) :
    (if a ≤ b ∧ a ≤ c then x else if b ≤ c then y else z) =
    (if a = min a (min b c) then x
     else if b = min a (min b c) then y else z) := by
  have h1 : (a = min a (min b c)) ↔ (a ≤ b ∧ a ≤ c) := by
    rw [eq_comm, min_eq_left_iff, le_min_iff]
  by_cases hab : a ≤ b ∧ a ≤ c
  · rw [if_pos hab, if_pos (h1.mpr hab)]
  · rw [if_neg hab, if_neg (fun h => hab (h1.mp h))]
    have h2 : (b = min a (min b c)) ↔ b ≤ c := by
      constructor
      · intro h
        calc b = min a (min b c) := h
          _ ≤ min b c := min_le_right _ _
          _ ≤ c := min_le_right _ _
      · intro hbc
        have hba : b ≤ a := by
          rcases le_or_lt a b with h' | h'
          · exact absurd ⟨h', le_trans h' hbc⟩ hab
          · exact le_of_lt h'
        rw [min_eq_left hbc, min_eq_right hba]
    by_cases hbc : b ≤ c
    · rw [if_pos hbc, if_pos (h2.mpr hbc)]
    · rw [if_neg hbc, if_neg (fun h => hbc (h2.mp h))]

theorem decide_eq_spec (content : List ℕ) (latency : ℚ) (is_file : Bool) :
    DynamicStrategySelector.decide content latency is_file =
      specModeChooser content latency is_file := by
  by_cases hempty : content.isEmpty
  · simp [DynamicStrategySelector.decide, specModeChooser, hempty]
  · simp only [DynamicStrategySelector.decide, specModeChooser, hempty,
      Bool.false_eq_true, if_false,
      DynamicStrategySelector.AVG_BANDWIDTH_MBPS, DynamicStrategySelector.WRITE_COST_MS,
      DynamicStrategySelector.READ_ID_COST_MS, DynamicStrategySelector.DRIFT_RATE]
    have hN : (if List.count 10 content = 0 then (1 : ℚ) else (List.count 10 content : ℚ)) =
        ((List.count 10 content : ℚ) ⊔ 1) := by
      by_cases h : List.count 10 content = 0
      · simp [h]
      · have h1 : (1 : ℚ) ≤ (List.count 10 content : ℚ) := by
          exact_mod_cast Nat.one_le_iff_ne_zero.mpr h
        rw [if_neg h, sup_eq_left.mpr h1]
    have hS : (if is_file = true then (content.length : ℚ) / (20 * 1024 * 1024) * 2
        else (content.length : ℚ) / (20 * 1024 * 1024)) =
        (content.length : ℚ) / (20 * 1024 * 1024) * (if is_file = true then 2 else 1) := by
      cases is_file <;> simp
    rw [hN, hS]
    exact select_min_eq _ _ _ _ _ _

theorem decide_instance_live :
    DynamicStrategySelector.decide c5Content (1 / 1000) false = SyncMode.LIVE_STATE := by
  have hcount : List.count 10 c5Content = 100 := by
    rw [c5Content, List.count_append, List.count_replicate, List.count_replicate]
    norm_num
  have hlen : c5Content.length = 10240 := by
    rw [c5Content, List.length_append, List.length_replicate, List.length_replicate]
  have hne : c5Content.isEmpty = false := by
    rw [c5Content, List.replicate_succ]
    rfl
  simp only [DynamicStrategySelector.decide, hcount, hlen, hne,
    DynamicStrategySelector.AVG_BANDWIDTH_MBPS, DynamicStrategySelector.WRITE_COST_MS,
    DynamicStrategySelector.READ_ID_COST_MS, DynamicStrategySelector.DRIFT_RATE,
    Bool.false_eq_true, if_false]
  norm_num

theorem resolveLoop_eq_find (base : List (String × PyVal)) (repo : String)
    (os : List RepositoryOverride) :
    resolveLoop base repo os =
      (os.find? (overridePasses repo)).map fun o => dictUpdate base o.updates := by
  induction os with
  | nil => rfl
  | cons o rest ih =>
    by_cases h : overridePasses repo o
    · simp [resolveLoop, List.find?, h]
    · simp only [resolveLoop, List.find?, h, if_neg, Bool.false_eq_true]
      simpa [h] using ih

theorem execute_sync_enabled_mono (s : Schedule) (o : ExecOutcome)
    (h : s.enabled = false) : (execute_sync s o).enabled = false := by
  cases o with
  | exception => simpa [execute_sync] using h
  | success =>
    simp only [execute_sync]
    split
    · rfl
    · simpa using h
  | reportErrors =>
    simp only [execute_sync]
    split
    · rfl
    · simpa using h

theorem runTrace_enabled_mono (t : List ExecOutcome) (s : Schedule)
    (h : s.enabled = false) : (runTrace s t).enabled = false := by
  induction t generalizing s with
  | nil => exact h
  | cons o rest ih => exact ih _ (execute_sync_enabled_mono s o h)

theorem reportErrors_disable (n : ℕ) (s : Schedule) (hn : 0 < n)
    (h : s.max_consecutive_errors ≤ s.consecutive_errors + n) :
    (runTrace s (List.replicate n .reportErrors)).enabled = false := by
  induction n generalizing s with
  | zero => exact absurd hn (by simp)
  | succ n ih =>
    rw [List.replicate_succ]
    show (runTrace (execute_sync s .reportErrors) (List.replicate n .reportErrors)).enabled = false
    by_cases hd : s.max_consecutive_errors ≤ s.consecutive_errors + 1
    · apply runTrace_enabled_mono
      simp [execute_sync, hd]
    · have hn' : 0 < n := by
        rcases Nat.eq_zero_or_pos n with h0 | h0
        · subst h0
          exact absurd h hd
        · exact h0
      have harith : (execute_sync s .reportErrors).max_consecutive_errors ≤
          (execute_sync s .reportErrors).consecutive_errors + n := by
        simp only [execute_sync, if_neg hd]
        omega
      exact ih _ hn' harith

theorem mongo_sink_write_full (o : FlushOutcome) (u : Bool) (bs : ℕ)
    (buf : List MongoOp) (op : MongoOp) (hfull : bs ≤ buf.length) :
    (if bs ≤ (buf ++ [op]).length
     then MongoSink.flush o ⟨u, bs, buf ++ [op]⟩
     else ⟨u, bs, buf ++ [op]⟩).buffer = [] := by
  have hcond : bs ≤ (buf ++ [op]).length := by
    simp only [List.length_append, List.length_cons, List.length_nil]
    omega
  rw [if_pos hcond, MongoSink.flush, if_neg (by simp)]

/-- C1 (amended).  For all mapping inputs with distinct keys (Python
dicts), `compare_states` returns exactly the three fields `deleted`,
`added`, `changed` and no `unchanged` field; `added` holds exactly the
keys of `current` absent from `old` (with the current value), `deleted`
exactly the keys of `old` absent from `current` (with the old value),
and `changed` exactly the common keys whose values differ, each mapped
to the dictionary with entries `old` and `new` (not to the bare new
value); the keys of the three fields, together with the common keys
whose values are equal, partition `keys(current) ∪ keys(old)`. -/
theorem compare_states_partition (cur old : PyDict)
    (hc : (cur.map Prod.fst).Nodup) :
    ∃ deleted added changed,
      compare_states cur old =
        [("deleted", deleted), ("added", added), ("changed", changed)] ∧
      (compare_states cur old).lookup "unchanged" = none ∧
      (∀ k v, added.lookup k = some v ↔ cur.lookup k = some v ∧ old.lookup k = none) ∧
      (∀ k v, deleted.lookup k = some v ↔ old.lookup k = some v ∧ cur.lookup k = none) ∧
      (∀ k w, changed.lookup k = some w ↔
        ∃ v v', cur.lookup k = some v ∧ old.lookup k = some v' ∧ pyEq v v' = false ∧
          w = PyVal.vDict [("old", v'), ("new", v)]) ∧
      (∀ k, ((cur.lookup k).isSome ∨ (old.lookup k).isSome) ↔
        ((added.lookup k).isSome ∨ (deleted.lookup k).isSome ∨
         (changed.lookup k).isSome ∨ unchangedKey cur old k)) ∧
      (∀ k, ((added.lookup k).isSome → deleted.lookup k = none ∧ changed.lookup k = none ∧
               ¬ unchangedKey cur old k) ∧
            ((deleted.lookup k).isSome → changed.lookup k = none ∧ ¬ unchangedKey cur old k) ∧
            ((changed.lookup k).isSome → ¬ unchangedKey cur old k)) := by
  refine ⟨_, _, _, rfl, rfl, ?_, ?_, ?_, ?_, ?_⟩
  · intro k v
    rw [lookup_filter_key cur (fun k => (old.lookup k).isNone) k]
    by_cases h : (old.lookup k) = none <;> simp [h]
  · intro k v
    rw [lookup_filter_key old (fun k => (cur.lookup k).isNone) k]
    by_cases h : (cur.lookup k) = none <;> simp [h]
  · intro k w
    rw [changed_lookup cur old hc k]
    rcases hcl : cur.lookup k with _ | v
    · simp
    · rcases hol : old.lookup k with _ | v'
      · simp
      · by_cases h : pyEq v v'
        · simp [h]
        · simp only [h, if_false, Bool.false_eq_true]
          constructor
          · rintro h2
            exact ⟨v, v', rfl, rfl, by simpa using h, (Option.some_injective _ h2).symm⟩
          · rintro ⟨a, b, ha, hb, hne, rfl⟩
            simp_all
  · intro k
    rw [lookup_filter_key cur (fun k => (old.lookup k).isNone) k,
        lookup_filter_key old (fun k => (cur.lookup k).isNone) k,
        changed_lookup cur old hc k]
    unfold unchangedKey
    rcases hcl : cur.lookup k with _ | v <;> rcases hol : old.lookup k with _ | v'
    · simp
    · simp
    · simp
    · by_cases h : pyEq v v' <;> simp [h]
  · intro k
    rw [lookup_filter_key cur (fun k => (old.lookup k).isNone) k,
        lookup_filter_key old (fun k => (cur.lookup k).isNone) k,
        changed_lookup cur old hc k]
    unfold unchangedKey
    rcases hcl : cur.lookup k with _ | v <;> rcases hol : old.lookup k with _ | v'
    · simp
    · simp
    · simp
    · by_cases h : pyEq v v'
      · simp [h]
      · simp [h]

/-- C1 counterexample.  On `current = a maps to 1` and `old = a maps
to 2` the result of `compare_states` has exactly the three fields
`deleted`, `added`, `changed` — there is no `unchanged` field, so the
claimed four-field partition is false — and `changed` maps the key to
the two-entry wrapper dictionary, not to the new value `1`. -/
theorem compare_states_counterexample :
    compare_states [("a", .vInt 1)] [("a", .vInt 2)] =
      [("deleted", []), ("added", []),
       ("changed", [("a", .vDict [("old", .vInt 2), ("new", .vInt 1)])])] ∧
    (compare_states [("a", .vInt 1)] [("a", .vInt 2)]).lookup "unchanged" = none ∧
    PyVal.vDict [("old", .vInt 2), ("new", .vInt 1)] ≠ PyVal.vInt 1 :=
  ⟨rfl, rfl, fun h => nomatch h⟩

/-- C1 witness: the amended theorem applied at the concrete inputs
`current = a maps to 1, b maps to 2` and `old = b maps to 3`, the
no-duplicate-keys hypothesis discharged by evaluation. -/
theorem compare_states_partition_witness :
    (([("a", PyVal.vInt 1), ("b", PyVal.vInt 2)].map Prod.fst).Nodup) ∧
    (∃ deleted added changed,
      compare_states [("a", PyVal.vInt 1), ("b", PyVal.vInt 2)] [("b", PyVal.vInt 3)] =
        [("deleted", deleted), ("added", added), ("changed", changed)] ∧
      (compare_states [("a", PyVal.vInt 1), ("b", PyVal.vInt 2)]
          [("b", PyVal.vInt 3)]).lookup "unchanged" = none ∧
      (∀ k v, added.lookup k = some v ↔
        List.lookup k [("a", PyVal.vInt 1), ("b", PyVal.vInt 2)] = some v ∧
        List.lookup k [("b", PyVal.vInt 3)] = none) ∧
      (∀ k v, deleted.lookup k = some v ↔
        List.lookup k [("b", PyVal.vInt 3)] = some v ∧
        List.lookup k [("a", PyVal.vInt 1), ("b", PyVal.vInt 2)] = none) ∧
      (∀ k w, changed.lookup k = some w ↔
        ∃ v v', List.lookup k [("a", PyVal.vInt 1), ("b", PyVal.vInt 2)] = some v ∧
          List.lookup k [("b", PyVal.vInt 3)] = some v' ∧ pyEq v v' = false ∧
          w = PyVal.vDict [("old", v'), ("new", v)]) ∧
      (∀ k, ((List.lookup k [("a", PyVal.vInt 1), ("b", PyVal.vInt 2)]).isSome ∨
             (List.lookup k [("b", PyVal.vInt 3)]).isSome) ↔
        ((added.lookup k).isSome ∨ (deleted.lookup k).isSome ∨
         (changed.lookup k).isSome ∨
         unchangedKey [("a", PyVal.vInt 1), ("b", PyVal.vInt 2)] [("b", PyVal.vInt 3)] k)) ∧
      (∀ k, ((added.lookup k).isSome →
              deleted.lookup k = none ∧ changed.lookup k = none ∧
              ¬ unchangedKey [("a", PyVal.vInt 1), ("b", PyVal.vInt 2)]
                  [("b", PyVal.vInt 3)] k) ∧
            ((deleted.lookup k).isSome →
              changed.lookup k = none ∧
              ¬ unchangedKey [("a", PyVal.vInt 1), ("b", PyVal.vInt 2)]
                  [("b", PyVal.vInt 3)] k) ∧
            ((changed.lookup k).isSome →
              ¬ unchangedKey [("a", PyVal.vInt 1), ("b", PyVal.vInt 2)]
                  [("b", PyVal.vInt 3)] k))) :=
  ⟨by simp, compare_states_partition _ _ (by simp)⟩

/-- C2 (code evaluated at the failing input).  On the tree
`varTrack maps to (a maps to 1)` with root key `varTrack`,
`find_key_iterative` returns a one-element list of path/value records —
a list of all matches, not the first node's value — and
`Flattenizer.process` therefore raises `AttributeError` when it calls
`.get` on that list; on a two-match tree the function returns both
matches in breadth-first order; only when no node matches does
`process` return the empty map.  This contradicts the claim that the
Project step returns the first matching node's value, never raises and
hands that value to Flatten. -/
theorem find_key_flattenizer_divergence :
    find_key_iterative 10 (PyVal.vDict [("varTrack", PyVal.vDict [("a", PyVal.vInt 1)])])
      "varTrack" = [("varTrack", PyVal.vDict [("a", PyVal.vInt 1)])] ∧
    flattenizerProcess 10 "varTrack"
      (PyVal.vDict [("varTrack", PyVal.vDict [("a", PyVal.vInt 1)])]) =
      .error "AttributeError: list object has no attribute get" ∧
    find_key_iterative 10
      (PyVal.vDict [("varTrack", PyVal.vDict [("varTrack", PyVal.vInt 2)])]) "varTrack" =
      [("varTrack", PyVal.vDict [("varTrack", PyVal.vInt 2)]),
       ("varTrack.varTrack", PyVal.vInt 2)] ∧
    flattenizerProcess 10 "varTrack" (PyVal.vDict [("other", PyVal.vInt 1)]) = .ok [] :=
  ⟨rfl, rfl, rfl, rfl⟩

/-- C3 (code evaluated at the failing input).  Running the sync engine
with current and previous content both flattening to the one-key map
`a maps to 1` raises `KeyError` on `diff['unchanged']` under
`GIT_UPSERT_ALL` — where the claim expects one UPDATE row per key —
and likewise under `GIT_SMART_REPAIR` — where the claim expects an
empty batch — because `compare_states` never returns an `unchanged`
field. -/
theorem calculate_sync_rows_keyerror :
    calculate_sync_rows [("a", PyVal.vInt 1)] [("a", PyVal.vInt 1)] []
      SyncMode.GIT_UPSERT_ALL [] = .error "KeyError: unchanged" ∧
    calculate_sync_rows [("a", PyVal.vInt 1)] [("a", PyVal.vInt 1)] []
      SyncMode.GIT_SMART_REPAIR [] = .error "KeyError: unchanged" :=
  ⟨rfl, rfl⟩

/-- C4 (code evaluated at the failing input).  For a rule with
`envAsBranch = true`, `fileName = "config.json"` and the default
template `{repoName}-{env}`, matching the file against branch
`refs/heads/prod` resolves `env = "prod"` but returns a null
`unique_key`: `_build_base_variables` provides only `branch` and
`file_path` (the repo-name extraction announced by its comment is
missing), so formatting raises `KeyError` on `repoName`, which
`_format_unique_key` turns into `None`.  A non-matching path still
returns null, as the claim states. -/
theorem rule_match_unique_key_is_none :
    c4Rule.get_unique_key_and_env "config.json" "refs/heads/prod" =
      some { unique_key := none, env := "prod" } ∧
    c4Rule.get_unique_key_and_env "other.json" "refs/heads/prod" = none ∧
    c4Rule.build_base_variables "config.json" "refs/heads/prod" =
      [("branch", "prod"), ("file_path", "config.json")] :=
  ⟨rfl, rfl, rfl⟩

/-- C5.  The AUTO sync-mode chooser returns `GIT_SMART_REPAIR`
unconditionally on empty content; on non-empty content it agrees, for
every content, every sink latency and both strategies, with the
spec-side chooser `specModeChooser` that picks the minimal-cost mode
among live, upsert and repair with ties broken in that order (with
`N = max(newline count, 1)`, `S` the byte length, bandwidth 20 MB/s,
write 0.5 ms, id-read 0.05 ms, drift 5 %); and on the claim's concrete
scenario — 1 ms latency, 10 KB content, 100 newlines, document
strategy — it returns `LIVE_STATE`. -/
theorem dynamic_strategy_claim :
    (∀ (latency : ℚ) (is_file : Bool),
       DynamicStrategySelector.decide [] latency is_file = SyncMode.GIT_SMART_REPAIR) ∧
    (∀ (content : List ℕ) (latency : ℚ) (is_file : Bool),
       DynamicStrategySelector.decide content latency is_file =
         specModeChooser content latency is_file) ∧
    DynamicStrategySelector.decide c5Content (1 / 1000) false = SyncMode.LIVE_STATE :=
  ⟨fun _ _ => rfl, decide_eq_spec, decide_instance_live⟩

/-- C6 (amended).  Per-repo override resolution returns the base
rule's configuration when the rule declares no overrides (unset or an
empty list); when overrides are declared it applies only the *first*
override, in declaration order, whose enable flag is true, whose
`matchRepositories` (when set and non-empty) contains a substring of
the repository name and whose `excludeRepositories` does not, merging
that one override's set fields onto the configuration and
re-validating; when overrides are declared but none passes, it returns
`None` rather than the base rule. -/
theorem resolve_rule_first_match :
    (∀ (base : List (String × PyVal)) (repo : String),
       resolve_rule_for_repo base none repo = some base) ∧
    (∀ (base : List (String × PyVal)) (repo : String),
       resolve_rule_for_repo base (some []) repo = some base) ∧
    (∀ (base : List (String × PyVal)) (os : List RepositoryOverride) (repo : String),
       os ≠ [] →
       resolve_rule_for_repo base (some os) repo =
         (os.find? (overridePasses repo)).map fun o => dictUpdate base o.updates) := by
  refine ⟨fun _ _ => rfl, fun _ _ => rfl, fun base os repo hne => ?_⟩
  rw [resolve_rule_for_repo, if_neg (by simpa using hne)]
  exact resolveLoop_eq_find base repo os

/-- C6 counterexample.  With one declared override that does not match
(its enable flag is false), resolution returns `None`, not the base
rule as the claim states; and with two enabled matching overrides only
the first is merged — the second override's `fileName` field is absent
from the result even though the override passes the match test. -/
theorem resolve_rule_counterexample :
    resolve_rule_for_repo c6Base (some [c6Disabled]) "my-repo" = none ∧
    resolve_rule_for_repo c6Base (some [c6First, c6Second]) "my-repo" =
      some [("platform", .vStr "github"), ("syncMode", .vStr "live_state")] ∧
    ((resolve_rule_for_repo c6Base (some [c6First, c6Second]) "my-repo").getD []).lookup
      "fileName" = none ∧
    overridePasses "my-repo" c6Second = true :=
  ⟨rfl, rfl, rfl, rfl⟩

/-- C6 witness: the amended theorem applied to a concrete base config,
a concrete two-override list and repository name `my-repo`, the
non-empty-list hypothesis discharged by evaluation. -/
theorem resolve_rule_first_match_witness :
    ([c6First, c6Second] ≠ ([] : List RepositoryOverride)) ∧
    resolve_rule_for_repo c6Base (some [c6First, c6Second]) "my-repo" =
      (([c6First, c6Second].find? (overridePasses "my-repo")).map fun o =>
        dictUpdate c6Base o.updates) :=
  ⟨by simp, resolve_rule_first_match.2.2 c6Base [c6First, c6Second] "my-repo" (by simp)⟩

/-- C7 (amended).  In the reconciliation-schedule state machine, a run
of at least `max_consecutive_errors` consecutive executions that all
complete with a report containing errors leaves the schedule disabled,
from any starting state; a successful execution resets
`consecutive_errors` to zero; but an execution that raises an
exception only increments the counter and never changes `enabled` —
the disable check lives inside the `try:` block and is not reached on
the exception path. -/
theorem watcher_disable_amended :
    (∀ (s : Schedule) (t : List ExecOutcome),
       0 < s.max_consecutive_errors →
       s.max_consecutive_errors ≤ t.length →
       (∀ o ∈ t, o = ExecOutcome.reportErrors) →
       (runTrace s t).enabled = false) ∧
    (∀ s : Schedule, (execute_sync s .success).consecutive_errors = 0) ∧
    (∀ s : Schedule, (execute_sync s .exception).enabled = s.enabled) ∧
    (∀ s : Schedule,
       (execute_sync s .exception).consecutive_errors = s.consecutive_errors + 1) := by
  refine ⟨?_, ?_, ?_, ?_⟩
  · intro s t hmax hlen hall
    have ht : t = List.replicate t.length ExecOutcome.reportErrors :=
      List.eq_replicate_of_mem hall
    rw [ht]
    exact reportErrors_disable t.length s (lt_of_lt_of_le hmax hlen) (le_trans hlen (by omega))
  · intro s
    simp only [execute_sync]
    split <;> rfl
  · intro s
    rfl
  · intro s
    rfl

/-- C7 counterexample.  Three consecutive raised exceptions on a fresh
schedule (`max_consecutive_errors = 3`) drive `consecutive_errors` to
exactly 3 yet leave `enabled = true`, contradicting the claim that
after exactly three consecutive failures of either kind the schedule
is disabled. -/
theorem watcher_exception_counterexample :
    initialSchedule.max_consecutive_errors = 3 ∧
    runTrace initialSchedule [.exception, .exception, .exception] =
      { enabled := true, consecutive_errors := 3, max_consecutive_errors := 3 } ∧
    (runTrace initialSchedule [.exception, .exception, .exception]).enabled = true :=
  ⟨rfl, rfl, rfl⟩

/-- C7 witness: the amended theorem applied to the initial schedule
and a trace of three report-with-errors executions, the hypotheses
discharged by evaluation. -/
theorem watcher_disable_amended_witness :
    (0 < initialSchedule.max_consecutive_errors) ∧
    (initialSchedule.max_consecutive_errors ≤
      (List.replicate 3 ExecOutcome.reportErrors).length) ∧
    (runTrace initialSchedule (List.replicate 3 ExecOutcome.reportErrors)).enabled = false :=
  ⟨by decide, by decide, watcher_disable_amended.1 initialSchedule
    (List.replicate 3 ExecOutcome.reportErrors) (by decide) (by decide)
    (fun o ho => by simpa using (List.eq_of_mem_replicate ho))⟩

/-- C8 (amended).  After any `MongoSink.flush` call the buffer is
empty whatever the bulk-write outcome (clean, `BulkWriteError`, or
another exception); a `MongoSink.write` call with the buffer already
holding at least `batch_size` rows flushes before returning provided
the row's kind is INSERT, UPDATE or DELETE (an UNCHANGED row builds no
operation and returns without flushing); and a
`MongoFileStrategy.write` call with the buffer already at or above
`buffer_size` always leaves an empty buffer. -/
theorem sink_flush_amended :
    (∀ (o : FlushOutcome) (s : MongoSinkState), (MongoSink.flush o s).buffer = []) ∧
    (∀ (o : FlushOutcome) (s : MongoSinkState) (row : PipelineRow),
       row.kind ≠ RowKind.UNCHANGED → s.batch_size ≤ s.buffer.length →
       (MongoSink.write o s row).buffer = []) ∧
    (∀ (row : Option PipelineRow) (buffer : List PipelineRow) (buffer_size : ℕ),
       buffer_size ≤ buffer.length →
       (MongoFileStrategy.write row buffer buffer_size).1 = []) := by
  refine ⟨?_, ?_, ?_⟩
  · intro o s
    rw [MongoSink.flush]
    split
    · next h => exact List.isEmpty_iff.mp h
    · rfl
  · intro o s row hkind hfull
    cases hk : row.kind with
    | UNCHANGED => exact absurd hk hkind
    | DELETE =>
        simp only [MongoSink.write, hk]
        exact mongo_sink_write_full o s.upsert_enable s.batch_size s.buffer _ hfull
    | INSERT =>
        by_cases hu : s.upsert_enable <;>
          simp only [MongoSink.write, hk, hu, Bool.false_eq_true, if_true, if_false] <;>
          exact mongo_sink_write_full o _ s.batch_size s.buffer _ hfull
    | UPDATE =>
        by_cases hu : s.upsert_enable <;>
          simp only [MongoSink.write, hk, hu, Bool.false_eq_true, if_true, if_false] <;>
          exact mongo_sink_write_full o _ s.batch_size s.buffer _ hfull
  · intro row buffer buffer_size hfull
    cases row with
    | some r =>
        have hcond : (buffer_size ≤ (buffer ++ [r]).length ∨ buffer_size = 0) ∧
            0 < (buffer ++ [r]).length := by
          constructor
          · left
            simp only [List.length_append, List.length_cons, List.length_nil]
            omega
          · simp
        simp only [MongoFileStrategy.write]
        rw [if_pos hcond]
    | none =>
        simp only [MongoFileStrategy.write]
        by_cases hpos : 0 < buffer.length
        · rw [if_pos ⟨Or.inl hfull, hpos⟩]
        · rw [if_neg (fun h => hpos h.2)]
          have hlen : buffer.length = 0 := by omega
          simpa using List.length_eq_zero.mp hlen

/-- C8 counterexample.  With `batch_size = 1` and one operation
already buffered, writing a row of kind UNCHANGED returns with the
buffer untouched and still full: no flush is triggered, contradicting
the claim that any write against a full buffer flushes before
returning. -/
theorem mongo_sink_unchanged_counterexample :
    c8State.batch_size ≤ c8State.buffer.length ∧
    MongoSink.write .success c8State c8Row = c8State ∧
    (MongoSink.write .success c8State c8Row).buffer = [MongoOp.deleteOne "k"] ∧
    [MongoOp.deleteOne "k"] ≠ ([] : List MongoOp) :=
  ⟨Nat.le_refl 1, rfl, rfl, fun h => nomatch h⟩

/-- C8 witness: the amended theorem applied at a full one-slot buffer
with an INSERT row, at a flush with outcome `BulkWriteError`, and at a
full file-strategy buffer, the hypotheses discharged by evaluation. -/
theorem sink_flush_amended_witness :
    ({ key := "a", value := .vInt 1, kind := .INSERT,
       metadata := [] } : PipelineRow).kind ≠ RowKind.UNCHANGED ∧
    ({ upsert_enable := true, batch_size := 1,
       buffer := [.deleteOne "k"] } : MongoSinkState).batch_size ≤
      ({ upsert_enable := true, batch_size := 1,
         buffer := [.deleteOne "k"] } : MongoSinkState).buffer.length ∧
    (1 : ℕ) ≤ ([c8Row] : List PipelineRow).length ∧
    (MongoSink.flush .bulkWriteError c8State).buffer = [] ∧
    (MongoSink.write .success
      { upsert_enable := true, batch_size := 1, buffer := [.deleteOne "k"] }
      { key := "a", value := .vInt 1, kind := .INSERT, metadata := [] }).buffer = [] ∧
    (MongoFileStrategy.write (some c8Row) [c8Row] 1).1 = [] :=
  ⟨by decide, Nat.le_refl 1, Nat.le_refl 1,
   sink_flush_amended.1 .bulkWriteError c8State,
   sink_flush_amended.2.1 .success
     { upsert_enable := true, batch_size := 1, buffer := [.deleteOne "k"] }
     { key := "a", value := .vInt 1, kind := .INSERT, metadata := [] }
     (by decide) (Nat.le_refl 1),
   sink_flush_amended.2.2 (some c8Row) [c8Row] 1 (Nat.le_refl 1)⟩

/-- C9 (code evaluated at the failing input).  In dynamic-container
mode (no static collection) a mutation row whose metadata carries a
unique key but no `env` entry is routed by
`row.metadata.get('env') or 'fs'` to the default GridFS bucket `fs`
and written there, instead of being failed with a SinkPartial error as
the spec requires. -/
theorem mongo_file_default_bucket :
    c9Row.metadata.lookup "env" = none ∧
    routeTarget c9Row.metadata = "fs" ∧
    flushGroups none [c9Row] = [("fs", [c9Row])] :=
  ⟨rfl, rfl, rfl⟩

/-- C10.  When the configured webhook secret is `None` or the empty
string, `verify_signature` returns `True` for every payload body and
every signature-header value, including a missing header: the check is
skipped entirely, whatever HMAC function the platform supplies. -/
theorem verify_signature_no_secret :
    ∀ (secret : Option String) (body : List ℕ) (header : Option String)
      (hmacHex : String → List ℕ → String),
      secret = none ∨ secret = some "" →
      verify_signature secret body header hmacHex = true := by
  rintro secret body header hmacHex (rfl | rfl)
  · rfl
  · rfl

/-- C10 witness: the theorem applied at secret `None`, a concrete
body and a concrete header, the disjunctive hypothesis discharged by
its left branch. -/
theorem verify_signature_no_secret_witness :
    ((none : Option String) = none ∨ (none : Option String) = some "") ∧
    verify_signature none [1, 2, 3] (some "sha256=deadbeef") (fun _ _ => "") = true :=
  ⟨Or.inl rfl,
   verify_signature_no_secret none [1, 2, 3] (some "sha256=deadbeef")
     (fun _ _ => "") (Or.inl rfl)⟩

end VarTrack
